import Mathlib

/-!
Shallow embedding of the Gateway Bridge Protocol Engine (src/gateway.c)
of the Virtual-CAN-HIL repository.

The C program reads 5-byte sensor packets from a TCP stream, validates
the sync byte and checksum, classifies a safety status, packs a fake CAN
frame and sends it over UDP.  Machine bytes (`unsigned char` / `uint8_t`)
are modelled as `Nat` with explicit `% 256` where the C code truncates;
`& 0xFF` in the source is rendered as `% 256`, and `uint16_t`/`uint32_t`
casts as `% 65536` / `% 2^32`.  The byte stream is modelled as the list
of chunks successive `recv` calls return (an empty chunk models a
`recv` result that is zero or negative).
-/

namespace Gateway

/-- Status codes from gateway.c: STATUS_OK 0x00, STATUS_WARN_LOW_VOLT 0x01,
STATUS_CRIT_TEMP 0x02. -/
inductive SafetyStatus where
  | ok
  | warnLowVoltage
  | critTemperature
deriving Repr, DecidableEq

/-- The numeric code stored into the frame for each status
(gateway.c lines 32-34). -/
def statusCode : SafetyStatus → Nat
  | .ok => 0x00
  | .warnLowVoltage => 0x01
  | .critTemperature => 0x02

/-- The semantic payload extracted from a validated packet: the three raw
bytes the gateway keeps as locals `volt_hi`, `volt_lo`, `temp`
(gateway.c lines 135-137). -/
structure Reading where
  volt_hi : Nat
  volt_lo : Nat
  temp : Nat
deriving Repr, DecidableEq

/-- `uint16_t voltage_mv = (volt_hi << 8) | volt_lo;` (gateway.c line 147);
the `% 65536` models the cast to `uint16_t`. -/
def Reading.voltage_mv (r : Reading) : Nat :=
  ((r.volt_hi <<< 8) ||| r.volt_lo) % 65536

/-- Validation errors of the frame validator (gateway.c lines 130-145). -/
inductive VError where
  | syncError (b : Nat)
  | checksumError
deriving Repr, DecidableEq

/-- Frame validation, translated from gateway.c lines 130-145:
byte 0 must equal 0xAA, then the checksum recomputed as
`(0xAA + volt_hi + volt_lo + temp) & 0xFF` must equal byte 4. -/
def validate (p : List Nat) : Except VError Reading :=
  if p.getD 0 0 ≠ 0xAA then
    .error (.syncError (p.getD 0 0))
  else
    let volt_hi := p.getD 1 0
    let volt_lo := p.getD 2 0
    let temp := p.getD 3 0
    let rx_cs := p.getD 4 0
    let calc_cs := (0xAA + volt_hi + volt_lo + temp) % 256
    if calc_cs ≠ rx_cs then .error .checksumError
    else .ok ⟨volt_hi, volt_lo, temp⟩

/-- `true` iff the 5-byte window passes both the sync and checksum checks. -/
def isValid (p : List Nat) : Bool :=
  match validate p with
  | .ok _ => true
  | .error _ => false

/-- Safety classifier, translated from gateway.c lines 154-160:
`status = OK; if (temp > 60) status = CRIT; else if (voltage_mv < 3100)
status = WARN;`. -/
def classify (r : Reading) : SafetyStatus :=
  if 60 < r.temp then .critTemperature
  else if r.voltage_mv < 3100 then .warnLowVoltage
  else .ok

/-- The packed struct `fake_can_frame_t` (gateway.c lines 38-42):
a 32-bit id, a length byte and 8 data bytes. -/
structure OutFrame where
  can_id : Nat
  dlc : Nat
  data : List Nat
deriving Repr, DecidableEq

/-- Frame construction from gateway.c lines 166-175: id 0x100, dlc 8,
data = volt_hi, volt_lo, temp, status, then four zero bytes from the
`memset`.  The `% 256` on each data byte models the `uint8_t` fields. -/
def mkFrame (r : Reading) (st : SafetyStatus) : OutFrame :=
  { can_id := 0x100 % 2 ^ 32
    dlc := 8 % 256
    data := [r.volt_hi % 256, r.volt_lo % 256, r.temp % 256,
             statusCode st % 256, 0, 0, 0, 0] }

/-- The four bytes of a 32-bit value in the chosen byte order; `sendto`
transmits the packed struct in the platform's native order, so the
order is a parameter. -/
def encodeU32 (littleEndian : Bool) (x : Nat) : List Nat :=
  if littleEndian then
    [x % 256, x / 256 % 256, x / 65536 % 256, x / 16777216 % 256]
  else
    [x / 16777216 % 256, x / 65536 % 256, x / 256 % 256, x % 256]

/-- On-wire bytes of the packed `fake_can_frame_t`: `sizeof(frame) = 13`,
no padding because of `__attribute__((packed))` (gateway.c line 38). -/
def serializeFrame (littleEndian : Bool) (f : OutFrame) : List Nat :=
  encodeU32 littleEndian (f.can_id % 2 ^ 32) ++ f.dlc % 256 :: f.data.map (· % 256)

/-- The packet built by the sensor encoding rule (mock_sensor.c lines 86-91):
`[0xAA, v_hi, v_lo, temp, (0xAA + v_hi + v_lo + temp) & 0xFF]`. -/
def mkPacket (vh vl t : Nat) : List Nat :=
  [0xAA, vh, vl, t, (0xAA + vh + vl + t) % 256]

/-- `l` with bit `b` of byte `i` flipped (checksum byte left untouched when
`i < 4`). -/
def flipBit (l : List Nat) (i b : Nat) : List Nat :=
  l.set i (l.getD i 0 ^^^ (1 <<< b))

/-- Modelled from the spec (§4.2/§6 wording): the checksum computed from the
packet's actual sync byte (byte 0) rather than from the literal constant
0xAA that gateway.c line 140 uses. -/
def specChecksum (p : List Nat) : Nat :=
  (p.getD 0 0 + p.getD 1 0 + p.getD 2 0 + p.getD 3 0) % 256

/-- The checksum exactly as gateway.c line 140 computes it, from the
literal constant 0xAA. -/
def codeChecksum (p : List Nat) : Nat :=
  (0xAA + p.getD 1 0 + p.getD 2 0 + p.getD 3 0) % 256

/-- Outcome of the inner reassembly loop (gateway.c lines 113-124).
`complete` returns the filled 5-byte buffer and the chunks not yet read;
`lost` is a `recv` result that was zero or negative (link lost), with the
chunks after the failed read; `starved` models a source that delivers no
further chunk, on which the real `recv` would block forever. -/
inductive RecvOutcome where
  | complete (packet : List Nat) (rest : List (List Nat))
  | lost (rest : List (List Nat))
  | starved
deriving Repr, DecidableEq

/-- The inner reassembly loop `while (bytes_read < 5)` of gateway.c
lines 113-124.  Each element of `chunks` is the byte sequence one `recv`
call returns; an empty chunk models `result <= 0`.  `acc` is the filled
prefix of `buffer`. -/
def readPacket (chunks : List (List Nat)) (acc : List Nat) : RecvOutcome :=
  if 5 ≤ acc.length then .complete acc chunks
  else
    match chunks with
    | [] => .starved
    | c :: rest => if c = [] then .lost rest else readPacket rest (acc ++ c)

/-- Observable events of one run of the gateway loop: the diagnostics it
prints and the datagrams it hands to the UDP sink.  `sent` records the
frame and the sink's success/failure result for that `sendto` call; the
gateway itself never inspects that result (gateway.c lines 181-188).
`txLog` is the per-cycle status line (gateway.c lines 191-196). -/
inductive Event where
  | warnSync (b : Nat)
  | warnChecksum
  | lostLink
  | sent (fr : OutFrame) (ok : Bool)
  | txLog (voltage temp status : Nat)
deriving Repr, DecidableEq

/-- The main gateway loop (gateway.c lines 109-207), run for `fuel`
iterations.  `sink k` is the success/failure of the `k`-th `sendto`.
Returns the events in order, the exit status (`some 1` when the loop
returned because of a lost link, `none` when the loop is still running
when the fuel ends or the source starves), and the chunks not consumed. -/
def bridgeRun :
    Nat → List (List Nat) → (Nat → Bool) → Nat →
      List Event × Option Nat × List (List Nat)
  | 0, chunks, _, _ => ([], none, chunks)
  | fuel + 1, chunks, sink, k =>
    match readPacket chunks [] with
    | .starved => ([], none, [])
    | .lost rest => ([.lostLink], some 1, rest)
    | .complete pkt rest =>
      match validate pkt with
      | .error (.syncError b) =>
        let out := bridgeRun fuel rest sink k
        (.warnSync b :: out.1, out.2)
      | .error .checksumError =>
        let out := bridgeRun fuel rest sink k
        (.warnChecksum :: out.1, out.2)
      | .ok r =>
        let st := classify r
        let out := bridgeRun fuel rest sink (k + 1)
        (.sent (mkFrame r st) (sink k) ::
          .txLog r.voltage_mv r.temp (statusCode st) :: out.1, out.2)

/-- Replace the sink's result recorded in a `sent` event by `true`,
leaving every other event unchanged: two traces equal up to `scrubSend`
show identical gateway behaviour, differing only in what the sink did. -/
def scrubSend : Event → Event
  | .sent fr _ => .sent fr true
  | e => e

/-- C1: the safety classifier is an ordered, first-match rule: temperature
above 60 gives `CritTemperature`; otherwise voltage below 3100 gives
`WarnLowVoltage`; otherwise `Ok`.  When both thresholds are breached the
result is `CritTemperature` and never `WarnLowVoltage`. -/
theorem classify_first_match (r : Reading) :
    (60 < r.temp → classify r = .critTemperature) ∧
    (¬ 60 < r.temp → r.voltage_mv < 3100 → classify r = .warnLowVoltage) ∧
    (¬ 60 < r.temp → ¬ r.voltage_mv < 3100 → classify r = .ok) ∧
    (60 < r.temp → r.voltage_mv < 3100 →
      classify r = .critTemperature ∧ classify r ≠ .warnLowVoltage) := by
  refine ⟨fun h => by simp [classify, h],
          fun h1 h2 => by simp [classify, h1, h2],
          fun h1 h2 => by simp [classify, h1, h2],
          fun h1 _ => ⟨by simp [classify, h1], by simp [classify, h1]⟩⟩

/-- Witness for C1 at a reading breaching both thresholds:
voltage 100 mV, temperature 70 °C. -/
theorem classify_first_match_inst :
    classify ⟨0, 100, 70⟩ = .critTemperature ∧
      classify ⟨0, 100, 70⟩ ≠ .warnLowVoltage :=
  (classify_first_match ⟨0, 100, 70⟩).2.2.2 (by decide) (by decide)

/-- C9: on every buffer that passed the sync check (byte 0 = 0xAA), the
checksum computed from the literal constant 0xAA (as the code does)
coincides with the checksum computed from the buffer's sync byte (as the
spec words it). -/
theorem codeChecksum_eq_specChecksum (p : List Nat) (_h5 : p.length = 5)
    (h0 : p.getD 0 0 = 0xAA) : codeChecksum p = specChecksum p := by
  unfold codeChecksum specChecksum
  rw [h0]

/-- Witness for C9 on a concrete synced buffer. -/
theorem codeChecksum_eq_specChecksum_inst :
    codeChecksum [0xAA, 1, 2, 3, 0xB0] = specChecksum [0xAA, 1, 2, 3, 0xB0] :=
  codeChecksum_eq_specChecksum [0xAA, 1, 2, 3, 0xB0] (by decide) (by decide)

/-- C8 counterexample: the checksum of `[0xAA, 0x0C, 0x1C, 0x2D]` is 0xFF,
not 0x07 as the scenario claims, and the packet ending in 0x07 fails
validation. -/
theorem scenario_packet_invalid :
    (0xAA + 0x0C + 0x1C + 0x2D) % 256 = 0xFF ∧
      (0xAA + 0x0C + 0x1C + 0x2D) % 256 ≠ 0x07 ∧
      isValid [0xAA, 0x0C, 0x1C, 0x2D, 0x07] = false := by decide

/-- C8 (amended): for the packet `[0xAA, 0x0C, 0x1C, 0x2D, 0xFF]`
(voltage 3100 mV, temperature 45 °C) the recomputed checksum is 0xFF, the
packet validates, classification yields `Ok` (3100 is not `< 3100`), and
the frame payload is `[0x0C, 0x1C, 0x2D, 0x00, 0, 0, 0, 0]`. -/
theorem scenario_ok_end_to_end :
    (0xAA + 0x0C + 0x1C + 0x2D) % 256 = 0xFF ∧
      validate [0xAA, 0x0C, 0x1C, 0x2D, 0xFF] = .ok ⟨0x0C, 0x1C, 0x2D⟩ ∧
      Reading.voltage_mv ⟨0x0C, 0x1C, 0x2D⟩ = 3100 ∧
      classify ⟨0x0C, 0x1C, 0x2D⟩ = .ok ∧
      (mkFrame ⟨0x0C, 0x1C, 0x2D⟩ .ok).data =
        [0x0C, 0x1C, 0x2D, 0x00, 0, 0, 0, 0] :=
  ⟨by decide, by rfl, by decide, by decide, by decide⟩

set_option maxRecDepth 4096 in
/-- Flipping one bit of a byte changes its value and keeps it below 256. -/
lemma xorBit_ne_and_lt : ∀ x < 256, ∀ b < 8,
    x ^^^ (1 <<< b) ≠ x ∧ x ^^^ (1 <<< b) < 256 := by decide

/-- A window whose received checksum differs from the recomputed one is
rejected by the validator even when its sync byte is fine. -/
lemma isValid_checksum_false (vh vl t cs : Nat)
    (h : (0xAA + vh + vl + t) % 256 ≠ cs) :
    isValid [0xAA, vh, vl, t, cs] = false := by
  simp [isValid, validate, h]

/-- C2: every packet built by the sensor's encoding rule passes
validation, and flipping any single bit of bytes 1-3 without recomputing
the checksum makes validation fail. -/
theorem checksum_roundtrip_flip (vh vl t i b : Nat)
    (hvh : vh < 256) (hvl : vl < 256) (ht : t < 256)
    (hi1 : 1 ≤ i) (hi3 : i ≤ 3) (hb : b < 8) :
    isValid (mkPacket vh vl t) = true ∧
      isValid (flipBit (mkPacket vh vl t) i b) = false := by
  constructor
  · simp [isValid, validate, mkPacket]
  · interval_cases i
    · obtain ⟨hne, hlt⟩ := xorBit_ne_and_lt vh hvh b hb
      have hfl : flipBit (mkPacket vh vl t) 1 b =
          [0xAA, vh ^^^ (1 <<< b), vl, t, (0xAA + vh + vl + t) % 256] := by
        simp [flipBit, mkPacket]
      rw [hfl]
      exact isValid_checksum_false _ _ _ _ (by omega)
    · obtain ⟨hne, hlt⟩ := xorBit_ne_and_lt vl hvl b hb
      have hfl : flipBit (mkPacket vh vl t) 2 b =
          [0xAA, vh, vl ^^^ (1 <<< b), t, (0xAA + vh + vl + t) % 256] := by
        simp [flipBit, mkPacket]
      rw [hfl]
      exact isValid_checksum_false _ _ _ _ (by omega)
    · obtain ⟨hne, hlt⟩ := xorBit_ne_and_lt t ht b hb
      have hfl : flipBit (mkPacket vh vl t) 3 b =
          [0xAA, vh, vl, t ^^^ (1 <<< b), (0xAA + vh + vl + t) % 256] := by
        simp [flipBit, mkPacket]
      rw [hfl]
      exact isValid_checksum_false _ _ _ _ (by omega)

/-- Witness for C2: packet bytes 5, 6, 7; flip bit 0 of byte 1. -/
theorem checksum_roundtrip_flip_inst :
    isValid (mkPacket 5 6 7) = true ∧
      isValid (flipBit (mkPacket 5 6 7) 1 0) = false :=
  checksum_roundtrip_flip 5 6 7 1 0 (by decide) (by decide) (by decide)
    (by decide) (by decide) (by decide)

/-- Accumulating any partition of the bytes still to come completes the
window with exactly those bytes, consuming every chunk. -/
lemma readPacket_partition (chunks : List (List Nat)) (acc : List Nat)
    (hne : ∀ c ∈ chunks, c ≠ [])
    (hlen : (acc ++ chunks.flatten).length = 5) :
    readPacket chunks acc = .complete (acc ++ chunks.flatten) [] := by
  induction chunks generalizing acc with
  | nil =>
    simp only [List.flatten_nil, List.append_nil] at hlen ⊢
    rw [readPacket]
    simp [hlen]
  | cons c rest ih =>
    have hc : c ≠ [] := hne c (by simp)
    have hcpos : 0 < c.length := List.length_pos.mpr hc
    have hlt : ¬ 5 ≤ acc.length := by
      simp only [List.flatten_cons, List.length_append] at hlen
      omega
    rw [readPacket]
    simp only [hlt, if_false, hc, ite_false]
    have hrec := ih (acc ++ c) (fun d hd => hne d (by simp [hd]))
      (by simp only [List.flatten_cons, List.length_append] at hlen ⊢; omega)
    rw [hrec]
    simp [List.append_assoc]

/-- C6: the reassembler's result does not depend on how the source chunks
its delivery — every partition of the same 5 bytes into nonempty reads
yields the identical completed RawPacket. -/
theorem reassembly_chunking_independent (chunks : List (List Nat))
    (packet : List Nat) (hne : ∀ c ∈ chunks, c ≠ [])
    (hjoin : chunks.flatten = packet) (hlen : packet.length = 5) :
    readPacket chunks [] = .complete packet [] := by
  subst hjoin
  simpa using readPacket_partition chunks [] hne (by simpa using hlen)

/-- Witness for C6: the packet delivered in chunks of 1, 2 and 2 bytes. -/
theorem reassembly_chunking_independent_inst :
    readPacket [[0xAA], [0x0C, 0x1C], [0x2D, 0xFF]] [] =
      .complete [0xAA, 0x0C, 0x1C, 0x2D, 0xFF] [] :=
  reassembly_chunking_independent [[0xAA], [0x0C, 0x1C], [0x2D, 0xFF]]
    [0xAA, 0x0C, 0x1C, 0x2D, 0xFF] (by decide) (by decide) (by decide)

/-- Every successful read adds at least one byte, so the window completes
within `5 - acc.length` further reads. -/
lemma readPacket_read_bound (chunks : List (List Nat)) (acc : List Nat)
    (hne : ∀ c ∈ chunks, c ≠ [])
    (hlen : 5 ≤ acc.length + chunks.length) :
    ∃ pkt rest, readPacket chunks acc = .complete pkt rest ∧
      chunks.length - rest.length ≤ 5 - acc.length := by
  induction chunks generalizing acc with
  | nil =>
    simp only [List.length_nil, Nat.add_zero] at hlen
    rw [readPacket]
    exact ⟨acc, [], by simp [hlen], by simp⟩
  | cons c rest ih =>
    rw [readPacket]
    by_cases hacc : 5 ≤ acc.length
    · exact ⟨acc, c :: rest, by simp [hacc], by simp⟩
    · have hc : c ≠ [] := hne c (by simp)
      have hcpos : 0 < c.length := List.length_pos.mpr hc
      simp only [hacc, if_false, hc, ite_false]
      have hlen' : 5 ≤ (acc ++ c).length + rest.length := by
        simp only [List.length_append]
        simp only [List.length_cons] at hlen
        omega
      obtain ⟨pkt, r, heq, hb⟩ :=
        ih (acc ++ c) (fun d hd => hne d (by simp [hd])) hlen'
      refine ⟨pkt, r, heq, ?_⟩
      simp only [List.length_append] at hb
      simp only [List.length_cons]
      omega

/-- C10: with a source whose every successful read returns at least one
byte, the inner reassembly loop completes the 5-byte window after at most
5 reads. -/
theorem reassembly_terminates_in_five_reads (chunks : List (List Nat))
    (hne : ∀ c ∈ chunks, c ≠ []) (hlen : 5 ≤ chunks.length) :
    ∃ pkt rest, readPacket chunks [] = .complete pkt rest ∧
      chunks.length - rest.length ≤ 5 := by
  simpa using readPacket_read_bound chunks [] hne (by simpa using hlen)

/-- Witness for C10: five single-byte reads. -/
theorem reassembly_terminates_in_five_reads_inst :
    ∃ pkt rest,
      readPacket [[0xAA], [0x0C], [0x1C], [0x2D], [0xFF]] [] =
        .complete pkt rest ∧
      ([[0xAA], [0x0C], [0x1C], [0x2D], [0xFF]] :
        List (List Nat)).length - rest.length ≤ 5 :=
  reassembly_terminates_in_five_reads [[0xAA], [0x0C], [0x1C], [0x2D], [0xFF]]
    (by decide) (by decide)

/-- An exhausted source starves the reassembler, so the loop stalls with
no event, no exit status and nothing left. -/
lemma bridgeRun_nil (fuel : Nat) (sink : Nat → Bool) (k : Nat) :
    bridgeRun fuel [] sink k = ([], none, []) := by
  cases fuel with
  | zero => rfl
  | succ n => rfl

/-- C5: for the stream `[0xAA,V1,V2,T1,CSbad] ++ [0xAA,V1,V2,T2,CSgood]`,
the first 5-byte window is consumed whole and discarded with a checksum
diagnostic, the second window validates, exactly one reading is produced
(one frame sent), and all 10 bytes are consumed. -/
theorem resync_full_window_discard (fuel V1 V2 T1 T2 CSb : Nat)
    (sink : Nat → Bool) (hmis : CSb ≠ (0xAA + V1 + V2 + T1) % 256) :
    bridgeRun (fuel + 1 + 1) [[0xAA, V1, V2, T1, CSb],
        [0xAA, V1, V2, T2, (0xAA + V1 + V2 + T2) % 256]] sink 0 =
      ([Event.warnChecksum,
        Event.sent (mkFrame ⟨V1, V2, T2⟩ (classify ⟨V1, V2, T2⟩)) (sink 0),
        Event.txLog (Reading.voltage_mv ⟨V1, V2, T2⟩) T2
          (statusCode (classify ⟨V1, V2, T2⟩))], none, []) ∧
    ([[0xAA, V1, V2, T1, CSb],
        [0xAA, V1, V2, T2, (0xAA + V1 + V2 + T2) % 256]] :
      List (List Nat)).flatten.length = 10 := by
  have hmis' : (0xAA + V1 + V2 + T1) % 256 ≠ CSb := fun h => hmis h.symm
  constructor
  · have hread1 : readPacket [[0xAA, V1, V2, T1, CSb],
        [0xAA, V1, V2, T2, (0xAA + V1 + V2 + T2) % 256]] [] =
        .complete [0xAA, V1, V2, T1, CSb]
          [[0xAA, V1, V2, T2, (0xAA + V1 + V2 + T2) % 256]] := rfl
    have hread2 : readPacket
        [[0xAA, V1, V2, T2, (0xAA + V1 + V2 + T2) % 256]] [] =
        .complete [0xAA, V1, V2, T2, (0xAA + V1 + V2 + T2) % 256] [] := rfl
    have hv1 : validate [0xAA, V1, V2, T1, CSb] = .error .checksumError := by
      simp [validate, hmis']
    have hv2 : validate [0xAA, V1, V2, T2, (0xAA + V1 + V2 + T2) % 256] =
        .ok ⟨V1, V2, T2⟩ := by simp [validate]
    rw [bridgeRun, hread1]
    dsimp only
    rw [hv1]
    dsimp only
    rw [bridgeRun, hread2]
    dsimp only
    rw [hv2]
    dsimp only
    rw [bridgeRun_nil]
  · simp

/-- Witness for C5 at concrete bytes (voltage 3100 mV, temperatures 45
and 46, corrupted checksum 0x00). -/
theorem resync_full_window_discard_inst :
    bridgeRun 2 [[0xAA, 0x0C, 0x1C, 0x2D, 0x00],
        [0xAA, 0x0C, 0x1C, 0x2E, (0xAA + 0x0C + 0x1C + 0x2E) % 256]]
        (fun _ => true) 0 =
      ([Event.warnChecksum,
        Event.sent (mkFrame ⟨0x0C, 0x1C, 0x2E⟩ (classify ⟨0x0C, 0x1C, 0x2E⟩))
          true,
        Event.txLog (Reading.voltage_mv ⟨0x0C, 0x1C, 0x2E⟩) 0x2E
          (statusCode (classify ⟨0x0C, 0x1C, 0x2E⟩))], none, []) ∧
    ([[0xAA, 0x0C, 0x1C, 0x2D, 0x00],
        [0xAA, 0x0C, 0x1C, 0x2E, (0xAA + 0x0C + 0x1C + 0x2E) % 256]] :
      List (List Nat)).flatten.length = 10 :=
  resync_full_window_discard 0 0x0C 0x1C 0x2D 0x2E 0x00 (fun _ => true)
    (by decide)

/-- C7 (amended): the gateway never inspects the result of a datagram
send, so the full event trace (up to the sink's own recorded result), the
exit status and the bytes consumed are identical for any two sinks: a
send failure never terminates the loop and never changes the processing
of any packet. -/
theorem send_failure_ignored (fuel : Nat) (chunks : List (List Nat))
    (sink sink' : Nat → Bool) (k k' : Nat) :
    (bridgeRun fuel chunks sink k).1.map scrubSend =
        (bridgeRun fuel chunks sink' k').1.map scrubSend ∧
      (bridgeRun fuel chunks sink k).2 = (bridgeRun fuel chunks sink' k').2 := by
  induction fuel generalizing chunks k k' with
  | zero => simp [bridgeRun]
  | succ n ih =>
    cases hr : readPacket chunks [] with
    | starved => simp [bridgeRun, hr]
    | lost rest => simp [bridgeRun, hr]
    | complete pkt rest =>
      cases hv : validate pkt with
      | error e =>
        cases e with
        | syncError b =>
          simp only [bridgeRun, hr, hv, List.map_cons, scrubSend]
          exact ⟨by rw [(ih rest k k').1], (ih rest k k').2⟩
        | checksumError =>
          simp only [bridgeRun, hr, hv, List.map_cons, scrubSend]
          exact ⟨by rw [(ih rest k k').1], (ih rest k k').2⟩
      | ok r =>
        simp only [bridgeRun, hr, hv, List.map_cons, scrubSend]
        exact ⟨by rw [(ih rest (k + 1) (k' + 1)).1], (ih rest (k + 1) (k' + 1)).2⟩

/-- C7 counterexample to "the engine logs the failure": on a failing
send the trace holds only the sent frame and the unconditional status
line — no failure diagnostic — and is identical (up to the sink's own
recorded result) to the trace of a fully successful run. -/
theorem send_failure_not_logged :
    (bridgeRun 1 [[0xAA, 0x0C, 0x1C, 0x2D, 0xFF]] (fun _ => false) 0).1 =
      [Event.sent (mkFrame ⟨0x0C, 0x1C, 0x2D⟩ .ok) false,
        Event.txLog 3100 45 0] ∧
    (bridgeRun 1 [[0xAA, 0x0C, 0x1C, 0x2D, 0xFF]] (fun _ => false) 0).1.map
        scrubSend =
      (bridgeRun 1 [[0xAA, 0x0C, 0x1C, 0x2D, 0xFF]] (fun _ => true) 0).1.map
        scrubSend := by
  constructor
  · rfl
  · rfl

/-- Peeling a non-`lostLink` event off a trace preserves the property
that anything after a `lostLink` occurrence is empty. -/
lemma split_cons_not_lost (e : Event) (he : e ≠ Event.lostLink)
    (evs : List Event) (Q : Prop)
    (H : ∀ pre post, evs = pre ++ Event.lostLink :: post → post = [] ∧ Q) :
    ∀ pre post, e :: evs = pre ++ Event.lostLink :: post →
      post = [] ∧ Q := by
  intro pre post h
  cases pre with
  | nil =>
    simp only [List.nil_append] at h
    injection h with h1 h2
    exact absurd h1 he
  | cons q pre2 =>
    simp only [List.cons_append] at h
    injection h with h1 h2
    exact H pre2 post h2

/-- C3: a zero-or-negative read makes the loop report the lost link and
return with exit status 1 (nonzero); nothing — in particular no datagram
send — follows a `lostLink` event in the trace, and a lost link is the
only way the steady-state loop terminates. -/
theorem linkLost_terminates (fuel : Nat) (chunks : List (List Nat))
    (sink : Nat → Bool) (k : Nat) :
    (∀ rest, readPacket chunks [] = .lost rest → 0 < fuel →
      bridgeRun fuel chunks sink k = ([Event.lostLink], some 1, rest)) ∧
    (∀ c, (bridgeRun fuel chunks sink k).2.1 = some c →
      c = 1 ∧ Event.lostLink ∈ (bridgeRun fuel chunks sink k).1) ∧
    (∀ pre post, (bridgeRun fuel chunks sink k).1 =
        pre ++ Event.lostLink :: post →
      post = [] ∧ (bridgeRun fuel chunks sink k).2.1 = some 1) := by
  induction fuel generalizing chunks k with
  | zero =>
    refine ⟨?_, ?_, ?_⟩
    · intro rest hl hf
      exact absurd hf (lt_irrefl 0)
    · intro c hc
      simp [bridgeRun] at hc
    · intro pre post h
      simp [bridgeRun] at h
  | succ n ih =>
    cases hr : readPacket chunks [] with
    | starved =>
      refine ⟨?_, ?_, ?_⟩
      · intro rest hl hf
        simp at hl
      · intro c hc
        simp [bridgeRun, hr] at hc
      · intro pre post h
        simp [bridgeRun, hr] at h
    | lost rest0 =>
      refine ⟨?_, ?_, ?_⟩
      · intro rest1 hl hf
        injection hl with h1
        subst h1
        simp [bridgeRun, hr]
      · intro c hc
        simp only [bridgeRun, hr] at hc ⊢
        exact ⟨by injection hc with h1; omega, by simp⟩
      · intro pre post h
        simp only [bridgeRun, hr] at h ⊢
        cases pre with
        | nil =>
          simp only [List.nil_append] at h
          injection h with h1 h2
          exact ⟨h2.symm, trivial⟩
        | cons q pre2 =>
          simp only [List.cons_append] at h
          injection h with h1 h2
          simp at h2
    | complete pkt rest =>
      have hnl : ∀ rest1, RecvOutcome.complete pkt rest = .lost rest1 →
          0 < n + 1 →
          bridgeRun (n + 1) chunks sink k = ([Event.lostLink], some 1, rest1) := by
        intro rest1 hl hf
        simp at hl
      cases hv : validate pkt with
      | error e =>
        cases e with
        | syncError b =>
          obtain ⟨-, ih1, ih2⟩ := ih rest k
          refine ⟨hnl, ?_, ?_⟩
          · intro c hc
            simp only [bridgeRun, hr, hv] at hc ⊢
            obtain ⟨hc1, hmem⟩ := ih1 c hc
            exact ⟨hc1, by simp [hmem]⟩
          · simp only [bridgeRun, hr, hv]
            exact split_cons_not_lost _ (by simp) _ _ ih2
        | checksumError =>
          obtain ⟨-, ih1, ih2⟩ := ih rest k
          refine ⟨hnl, ?_, ?_⟩
          · intro c hc
            simp only [bridgeRun, hr, hv] at hc ⊢
            obtain ⟨hc1, hmem⟩ := ih1 c hc
            exact ⟨hc1, by simp [hmem]⟩
          · simp only [bridgeRun, hr, hv]
            exact split_cons_not_lost _ (by simp) _ _ ih2
      | ok r =>
        obtain ⟨-, ih1, ih2⟩ := ih rest (k + 1)
        refine ⟨hnl, ?_, ?_⟩
        · intro c hc
          simp only [bridgeRun, hr, hv] at hc ⊢
          obtain ⟨hc1, hmem⟩ := ih1 c hc
          exact ⟨hc1, by simp [hmem]⟩
        · simp only [bridgeRun, hr, hv]
          exact split_cons_not_lost _ (by simp) _ _
            (split_cons_not_lost _ (by simp) _ _ ih2)

/-- Witness for C3: a partial read followed by a failed read; the run
reports the lost link, exits with status 1 and sends nothing after. -/
theorem linkLost_terminates_inst :
    bridgeRun 3 [[0xAA, 1], []] (fun _ => true) 0 =
      ([Event.lostLink], some 1, []) :=
  (linkLost_terminates 3 [[0xAA, 1], []] (fun _ => true) 0).1 []
    (by rfl) (by decide)

/-- C4: for every validated reading and status the serialized frame is
exactly 13 bytes: bytes 0-3 the 32-bit id 0x100 in the platform's byte
order, byte 4 the length 8, bytes 5-7 the voltage-high, voltage-low and
temperature bytes, byte 8 the status code (0x00 Ok, 0x01 WarnLowVoltage,
0x02 CritTemperature), bytes 9-12 zero. -/
theorem outFrame_wire_layout (r : Reading) (st : SafetyStatus) (le : Bool)
    (hvh : r.volt_hi < 256) (hvl : r.volt_lo < 256) (ht : r.temp < 256) :
    (serializeFrame le (mkFrame r st)).length = 13 ∧
      (serializeFrame le (mkFrame r st)).take 4 = encodeU32 le 0x100 ∧
      (serializeFrame le (mkFrame r st)).getD 4 0 = 8 ∧
      (serializeFrame le (mkFrame r st)).getD 5 0 = r.volt_hi ∧
      (serializeFrame le (mkFrame r st)).getD 6 0 = r.volt_lo ∧
      (serializeFrame le (mkFrame r st)).getD 7 0 = r.temp ∧
      (serializeFrame le (mkFrame r st)).getD 8 0 = statusCode st ∧
      statusCode .ok = 0x00 ∧ statusCode .warnLowVoltage = 0x01 ∧
      statusCode .critTemperature = 0x02 ∧
      (serializeFrame le (mkFrame r st)).drop 9 = [0, 0, 0, 0] := by
  obtain ⟨vh, vl, t⟩ := r
  simp only [Reading.volt_hi, Reading.volt_lo, Reading.temp] at hvh hvl ht ⊢
  cases le <;> cases st <;>
    simp [serializeFrame, mkFrame, encodeU32, statusCode, List.getD,
      Nat.mod_eq_of_lt hvh, Nat.mod_eq_of_lt hvl, Nat.mod_eq_of_lt ht]

/-- Witness for C4 at the reading (voltage 3100 mV, temperature 45 °C),
status Ok, little-endian byte order. -/
theorem outFrame_wire_layout_inst :
    (serializeFrame true (mkFrame ⟨0x0C, 0x1C, 0x2D⟩ .ok)).length = 13 ∧
      (serializeFrame true (mkFrame ⟨0x0C, 0x1C, 0x2D⟩ .ok)).take 4 =
        encodeU32 true 0x100 ∧
      (serializeFrame true (mkFrame ⟨0x0C, 0x1C, 0x2D⟩ .ok)).getD 4 0 = 8 ∧
      (serializeFrame true (mkFrame ⟨0x0C, 0x1C, 0x2D⟩ .ok)).getD 5 0 = 0x0C ∧
      (serializeFrame true (mkFrame ⟨0x0C, 0x1C, 0x2D⟩ .ok)).getD 6 0 = 0x1C ∧
      (serializeFrame true (mkFrame ⟨0x0C, 0x1C, 0x2D⟩ .ok)).getD 7 0 = 0x2D ∧
      (serializeFrame true (mkFrame ⟨0x0C, 0x1C, 0x2D⟩ .ok)).getD 8 0 =
        statusCode .ok ∧
      statusCode .ok = 0x00 ∧ statusCode .warnLowVoltage = 0x01 ∧
      statusCode .critTemperature = 0x02 ∧
      (serializeFrame true (mkFrame ⟨0x0C, 0x1C, 0x2D⟩ .ok)).drop 9 =
        [0, 0, 0, 0] :=
  outFrame_wire_layout ⟨0x0C, 0x1C, 0x2D⟩ .ok true (by decide) (by decide)
    (by decide)

end Gateway
